import Mathlib

/-!
Verification of the EcoSync duplicate-detection and post-verification
pipeline.  Definitions are shallow embeddings of the Python source:

* `backend/app/services/verification.py` — `_cosine`, `_hash_embedding`,
  `assess_image_authenticity`, `find_near_duplicate`, `save_embedding`
* `backend/app/routes/posts.py` — `create_post`, `approve_post`, `reject_post`
* `backend/app/db.py` — `adjust_credits`, `get_credits`, post/embedding tables
* `backend/app/datastore.py` — `DataStore.adjust_credits`
* `backend/app/ai_client.py` — `call_ai_service`
* `ai_service/main.py` — `search_vectors`

Bytes are modelled as natural numbers, Python floats by real numbers
(exact arithmetic), database tables by association lists in declaration
order, and the external AI calls by explicit outcome parameters.
-/

namespace EcoSync

/-! ## SHA-256 (model of `hashlib.sha256(...).digest()`)

A byte-level implementation of FIPS 180-4 SHA-256 over `List ℕ`
(each entry one byte).  Only the digest length (32 bytes) and the byte
range (`< 256`) matter for the claims; the rounds are included so the
embedding of `_hash_embedding` is a complete function of its input. -/

namespace SHA256

/-- Truncate to a 32-bit word, as Python's float-free int ops composed with
the explicit `& 0xffffffff` masking SHA-256 performs on words. -/
def wmod (x : ℕ) : ℕ := x % 4294967296

/-- Rotate a 32-bit word right by `n` positions. -/
def rotr (n x : ℕ) : ℕ := wmod (Nat.lor (x >>> n) (x <<< (32 - n)))

def bigSigma0 (x : ℕ) : ℕ := Nat.xor (rotr 2 x) (Nat.xor (rotr 13 x) (rotr 22 x))

def bigSigma1 (x : ℕ) : ℕ := Nat.xor (rotr 6 x) (Nat.xor (rotr 11 x) (rotr 25 x))

def smallSigma0 (x : ℕ) : ℕ := Nat.xor (rotr 7 x) (Nat.xor (rotr 18 x) (x >>> 3))

def smallSigma1 (x : ℕ) : ℕ := Nat.xor (rotr 17 x) (Nat.xor (rotr 19 x) (x >>> 10))

def chF (e f g : ℕ) : ℕ := Nat.xor (Nat.land e f) (Nat.land (Nat.xor e 4294967295) g)

def majF (a b c : ℕ) : ℕ := Nat.xor (Nat.xor (Nat.land a b) (Nat.land a c)) (Nat.land b c)

/-- The sixty-four round constants of FIPS 180-4 (decimal). -/
def K : List ℕ :=
  [1116352408, 1899447441, 3049323471, 3921009573, 961987163, 1508970993,
   2453635748, 2870763221, 3624381080, 310598401, 607225278, 1426881987,
   1925078388, 2162078206, 2614888103, 3248222580, 3835390401, 4022224774,
   264347078, 604807628, 770255983, 1249150122, 1555081692, 1996064986,
   2554220882, 2821834349, 2952996808, 3210313671, 3336571891, 3584528711,
   113926993, 338241895, 666307205, 773529912, 1294757372, 1396182291,
   1695183700, 1986661051, 2177026350, 2456956037, 2730485921, 2820302411,
   3259730800, 3345764771, 3516065817, 3600352804, 4094571909, 275423344,
   430227734, 506948616, 659060556, 883997877, 958139571, 1322822218,
   1537002063, 1747873779, 1955562222, 2024104815, 2227730452, 2361852424,
   2428436474, 2756734187, 3204031479, 3329325298]

/-- Big-endian byte serialization of `x` into `k` bytes. -/
def toBytesBE (k x : ℕ) : List ℕ := (List.range k).reverse.map fun i => (x >>> (8 * i)) % 256

/-- FIPS padding: append `0x80`, zero bytes to 56 mod 64, then the bit length
as 8 big-endian bytes. -/
def padMessage (msg : List ℕ) : List ℕ :=
  msg ++ [0x80] ++ List.replicate ((119 - msg.length % 64) % 64) 0 ++ toBytesBE 8 (8 * msg.length)

/-- Split into 64-byte chunks (fuel-indexed to keep the recursion structural). -/
def chunksGo : ℕ → List ℕ → List (List ℕ)
  | 0, _ => []
  | _ + 1, [] => []
  | fuel + 1, l => l.take 64 :: chunksGo fuel (l.drop 64)

def chunksOf64 (l : List ℕ) : List (List ℕ) := chunksGo l.length l

/-- Group bytes into big-endian 32-bit words. -/
def bytesToWords : List ℕ → List ℕ
  | b0 :: b1 :: b2 :: b3 :: rest => (((b0 * 256 + b1) * 256 + b2) * 256 + b3) :: bytesToWords rest
  | _ => []

/-- Extend the 16-word schedule to 64 words (48 extension steps). -/
def extendSchedule : ℕ → List ℕ → List ℕ
  | 0, w => w
  | n + 1, w =>
    let i := w.length
    extendSchedule n (w ++ [wmod (smallSigma1 (w.getD (i - 2) 0) + w.getD (i - 7) 0 +
      smallSigma0 (w.getD (i - 15) 0) + w.getD (i - 16) 0)])

/-- The eight working words of the compression state. -/
structure Hash8 where
  a : ℕ
  b : ℕ
  c : ℕ
  d : ℕ
  e : ℕ
  f : ℕ
  g : ℕ
  h : ℕ

/-- One compression round with the combined constant-plus-schedule word. -/
def round1 (st : Hash8) (kw : ℕ) : Hash8 :=
  let t1 := wmod (st.h + bigSigma1 st.e + chF st.e st.f st.g + kw)
  let t2 := wmod (bigSigma0 st.a + majF st.a st.b st.c)
  ⟨wmod (t1 + t2), st.a, st.b, st.c, wmod (st.d + t1), st.e, st.f, st.g⟩

/-- Compress one 64-byte chunk into the running state. -/
def compressChunk (st : Hash8) (chunk : List ℕ) : Hash8 :=
  let w := extendSchedule 48 (bytesToWords chunk)
  let s := (K.zip w).foldl (fun acc p => round1 acc (wmod (p.1 + p.2))) st
  ⟨wmod (st.a + s.a), wmod (st.b + s.b), wmod (st.c + s.c), wmod (st.d + s.d),
   wmod (st.e + s.e), wmod (st.f + s.f), wmod (st.g + s.g), wmod (st.h + s.h)⟩

def initH : Hash8 :=
  ⟨1779033703, 3144134277, 1013904242, 2773480762,
   1359893119, 2600822924, 528734635, 1541459225⟩

/-- Big-endian bytes of one 32-bit word. -/
def wordBytes (x : ℕ) : List ℕ := [(x >>> 24) % 256, (x >>> 16) % 256, (x >>> 8) % 256, x % 256]

/-- The 32-byte SHA-256 digest of a byte string. -/
def sha256 (msg : List ℕ) : List ℕ :=
  let fin := (chunksOf64 (padMessage msg)).foldl compressChunk initH
  wordBytes fin.a ++ wordBytes fin.b ++ wordBytes fin.c ++ wordBytes fin.d ++
  wordBytes fin.e ++ wordBytes fin.f ++ wordBytes fin.g ++ wordBytes fin.h

theorem sha256_length (msg : List ℕ) : (sha256 msg).length = 32 := by
  simp [sha256, wordBytes]

theorem wordBytes_lt (x : ℕ) : ∀ b ∈ wordBytes x, b < 256 := by
  intro b hb
  simp only [wordBytes, List.mem_cons, List.not_mem_nil, or_false] at hb
  omega

theorem sha256_byte_lt (msg : List ℕ) : ∀ b ∈ sha256 msg, b < 256 := by
  intro b hb
  simp only [sha256, List.mem_append] at hb
  rcases hb with ((((((h | h) | h) | h) | h) | h) | h) | h <;> exact wordBytes_lt _ _ h

end SHA256

/-! ## `_hash_embedding` (`backend/app/services/verification.py`, lines 30-34)

```python
def _hash_embedding(data: bytes, dims: int = 64) -> List[float]:
    digest = hashlib.sha256(data).digest()
    full = (digest * ((dims // len(digest)) + 1))[:dims]
    return [byte / 255.0 for byte in full]
```
-/

def _hash_embedding (data : List ℕ) (dims : ℕ) : List ℚ :=
  let digest := SHA256.sha256 data
  let full := (List.flatten (List.replicate (dims / digest.length + 1) digest)).take dims
  full.map fun (byte : ℕ) => (byte : ℚ) / 255

/-- Claim C10: for every byte input and every positive configured dimensionality,
the deterministic hash embedding returns a vector of exactly that length whose
components each lie in [0,1], and it is pure: equal byte inputs give equal
vectors (the embedding is a mathematical function; there is no stored state). -/
theorem hash_embedding_spec (data : List ℕ) (dims : ℕ) (hdims : 0 < dims) :
    (_hash_embedding data dims).length = dims ∧
    (∀ q ∈ _hash_embedding data dims, 0 ≤ q ∧ q ≤ 1) ∧
    (∀ data2, data2 = data → _hash_embedding data2 dims = _hash_embedding data dims) := by
  refine ⟨?_, ?_, ?_⟩
  · have hlen := SHA256.sha256_length data
    simp only [_hash_embedding, List.length_map, List.length_take, List.length_flatten,
      List.map_replicate, List.sum_replicate, smul_eq_mul, hlen]
    have h1 := Nat.div_add_mod dims 32
    have h2 : dims % 32 < 32 := Nat.mod_lt _ (by norm_num)
    omega
  · intro q hq
    simp only [_hash_embedding, List.mem_map] at hq
    obtain ⟨byte, hmem, rfl⟩ := hq
    have hbyte : byte < 256 := by
      have h1 : byte ∈ List.flatten (List.replicate (dims / (SHA256.sha256 data).length + 1)
          (SHA256.sha256 data)) := List.mem_of_mem_take hmem
      rw [List.mem_flatten] at h1
      obtain ⟨s, hs, hbs⟩ := h1
      rw [List.eq_of_mem_replicate hs] at hbs
      exact SHA256.sha256_byte_lt data byte hbs
    constructor
    · positivity
    · rw [div_le_one (by norm_num)]
      have h255 : byte ≤ 255 := by omega
      exact_mod_cast h255
  · intro data2 h
    rw [h]

/-! ## Cosine similarity and the owner-scoped duplicate scan
(`backend/app/services/verification.py`, lines 19-27 and 122-133)

```python
def _cosine(a, b):
    if not a or not b or len(a) != len(b):
        return 0.0
    dot = sum(x * y for x, y in zip(a, b))
    na = math.sqrt(sum(x * x for x in a))
    nb = math.sqrt(sum(y * y for y in b))
    if na == 0 or nb == 0:
        return 0.0
    return dot / (na * nb)

async def find_near_duplicate(vector, settings, threshold=0.80, user_id=None):
    candidates = [c for c in get_embeddings() if (user_id is None or c["user_id"] == user_id)]
    best = None
    best_score = 0.0
    for item in candidates:
        score = _cosine(vector, item["vector"])
        if score > threshold and score > best_score:
            best = {**item, "score": score}
            best_score = score
    return best
```

Python floats are modelled by `ℝ`; the embeddings table rows
(`post_id, user_id, vector`) by `EmbRec` in insertion order. -/

noncomputable def dotp : List ℝ → List ℝ → ℝ
  | x :: xs, y :: ys => x * y + dotp xs ys
  | _, _ => 0

noncomputable def sumSq : List ℝ → ℝ
  | [] => 0
  | x :: xs => x * x + sumSq xs

noncomputable def _cosine (a b : List ℝ) : ℝ :=
  if a.isEmpty || b.isEmpty || a.length != b.length then 0
  else if Real.sqrt (sumSq a) = 0 ∨ Real.sqrt (sumSq b) = 0 then 0
  else dotp a b / (Real.sqrt (sumSq a) * Real.sqrt (sumSq b))

/-- One row of the backend `embeddings` table. -/
structure EmbRec where
  post_id : String
  user_id : String
  vector : List ℝ

/-- The `for item in candidates` loop of `find_near_duplicate`, with the
running `best` and `best_score` accumulators. -/
noncomputable def findLoop (q : List ℝ) (thr : ℝ) :
    List EmbRec → Option (EmbRec × ℝ) → ℝ → Option (EmbRec × ℝ)
  | [], best, _ => best
  | item :: rest, best, best_score =>
    let score := _cosine q item.vector
    if score > thr ∧ score > best_score then
      findLoop q thr rest (some (item, score)) score
    else
      findLoop q thr rest best best_score

noncomputable def find_near_duplicate (vector : List ℝ) (thr : ℝ) (user_id : Option String)
    (store : List EmbRec) : Option (EmbRec × ℝ) :=
  findLoop vector thr (store.filter fun c => user_id.isNone || (user_id == some c.user_id)) none 0

/-- Accumulator invariant carried through the scan loop: either no best has
been recorded yet (and `best_score` still holds its initial `0.0`), or the
recorded best is a previously scored record strictly above the threshold. -/
def LoopInv (q : List ℝ) (thr : ℝ) (best : Option (EmbRec × ℝ)) (bs : ℝ) : Prop :=
  match best with
  | none => bs = 0 ∧ 0 ≤ thr
  | some rs => rs.2 = bs ∧ thr < bs ∧ rs.2 = _cosine q rs.1.vector

/-- Full characterization of the scan loop: a `none` result means every
remaining record scores at or below the threshold; a `some` result carries the
cosine score of its record, beats the threshold and every other above-threshold
record, and is either the first record of the list attaining that maximal score
or the carried-in accumulator. -/
theorem findLoop_spec (q : List ℝ) (thr : ℝ) :
    ∀ (l : List EmbRec) (best : Option (EmbRec × ℝ)) (bs : ℝ), LoopInv q thr best bs →
      (findLoop q thr l best bs = none → best = none ∧ ∀ c ∈ l, _cosine q c.vector ≤ thr) ∧
      (∀ rs, findLoop q thr l best bs = some rs →
        rs.2 = _cosine q rs.1.vector ∧ thr < rs.2 ∧ bs ≤ rs.2 ∧
        (∀ c ∈ l, thr < _cosine q c.vector → _cosine q c.vector ≤ rs.2) ∧
        ((∃ l1 l2, l = l1 ++ rs.1 :: l2 ∧ bs < rs.2 ∧ ∀ c ∈ l1, _cosine q c.vector < rs.2) ∨
          (best = some rs ∧ ∀ c ∈ l, _cosine q c.vector ≤ rs.2))) := by
  intro l
  induction l with
  | nil =>
    intro best bs hinv
    constructor
    · intro hnone
      simp only [findLoop] at hnone
      exact ⟨hnone, by simp⟩
    · intro rs hsome
      simp only [findLoop] at hsome
      rcases best with _ | rs0
      · cases hsome
      · obtain ⟨h1, h2, h3⟩ := hinv
        cases hsome
        exact ⟨h3, h1 ▸ h2, le_of_eq h1.symm, by simp, Or.inr ⟨rfl, by simp⟩⟩
  | cons c rest ih =>
    intro best bs hinv
    by_cases hcond : _cosine q c.vector > thr ∧ _cosine q c.vector > bs
    · have hstep : findLoop q thr (c :: rest) best bs =
          findLoop q thr rest (some (c, _cosine q c.vector)) (_cosine q c.vector) := by
        simp only [findLoop]
        rw [if_pos hcond]
      have hinv2 : LoopInv q thr (some (c, _cosine q c.vector)) (_cosine q c.vector) :=
        ⟨rfl, hcond.1, rfl⟩
      obtain ⟨ihn, ihs⟩ := ih (some (c, _cosine q c.vector)) (_cosine q c.vector) hinv2
      constructor
      · intro hnone
        rw [hstep] at hnone
        exact absurd (ihn hnone).1 (by simp)
      · intro rs hsome
        rw [hstep] at hsome
        obtain ⟨hsc, hthr, hle, hmax, hdisj⟩ := ihs rs hsome
        refine ⟨hsc, hthr, le_of_lt (lt_of_lt_of_le hcond.2 hle), ?_, ?_⟩
        · intro x hx hxthr
          rcases List.mem_cons.mp hx with rfl | hx2
          · exact hle
          · exact hmax x hx2 hxthr
        · rcases hdisj with ⟨l1, l2, hsplit, hlt, hall⟩ | ⟨heq, hall⟩
          · refine Or.inl ⟨c :: l1, l2, by rw [hsplit]; rfl, lt_trans hcond.2 hlt, ?_⟩
            intro x hx
            rcases List.mem_cons.mp hx with rfl | hx2
            · exact hlt
            · exact hall x hx2
          · obtain ⟨rfl⟩ : rs = (c, _cosine q c.vector) := by
              cases heq; rfl
            exact Or.inl ⟨[], rest, rfl, hcond.2, by simp⟩
    · have hstep : findLoop q thr (c :: rest) best bs = findLoop q thr rest best bs := by
        simp only [findLoop]
        rw [if_neg hcond]
      have hmiss : _cosine q c.vector ≤ thr ∨ _cosine q c.vector ≤ bs := by
        by_contra hcon
        push_neg at hcon
        exact hcond ⟨hcon.1, hcon.2⟩
      obtain ⟨ihn, ihs⟩ := ih best bs hinv
      constructor
      · intro hnone
        rw [hstep] at hnone
        obtain ⟨hb, hall⟩ := ihn hnone
        refine ⟨hb, ?_⟩
        intro x hx
        rcases List.mem_cons.mp hx with rfl | hx2
        · rcases hmiss with hm | hm
          · exact hm
          · subst hb
            obtain ⟨hbs0, hthr0⟩ := hinv
            exact le_trans hm (hbs0 ▸ hthr0)
        · exact hall x hx2
      · intro rs hsome
        rw [hstep] at hsome
        obtain ⟨hsc, hthr, hle, hmax, hdisj⟩ := ihs rs hsome
        refine ⟨hsc, hthr, hle, ?_, ?_⟩
        · intro x hx hxthr
          rcases List.mem_cons.mp hx with rfl | hx2
          · rcases hmiss with hm | hm
            · exact absurd hxthr (not_lt.mpr hm)
            · exact le_trans hm hle
          · exact hmax x hx2 hxthr
        · rcases hdisj with ⟨l1, l2, hsplit, hlt, hall⟩ | ⟨heq, hall⟩
          · refine Or.inl ⟨c :: l1, l2, by rw [hsplit]; rfl, hlt, ?_⟩
            intro x hx
            rcases List.mem_cons.mp hx with rfl | hx2
            · rcases hmiss with hm | hm
              · exact lt_of_le_of_lt hm hthr
              · exact lt_of_le_of_lt hm hlt
            · exact hall x hx2
          · refine Or.inr ⟨heq, ?_⟩
            intro x hx
            rcases List.mem_cons.mp hx with rfl | hx2
            · rcases hmiss with hm | hm
              · exact le_trans hm (le_of_lt hthr)
              · exact le_trans hm hle
            · exact hall x hx2

/-- Claim C2: `find_near_duplicate` returns a match iff some owner-scoped
candidate scores strictly above the threshold; a returned match carries the
cosine score of its record, strictly beats the threshold, is at least every
other candidate's score, and is the first candidate in storage iteration order
attaining the maximal score (all strictly-earlier candidates score strictly
lower, so the first record wins exact ties). -/
theorem find_near_duplicate_spec (vector : List ℝ) (thr : ℝ) (user_id : Option String)
    (store : List EmbRec) (hthr : 0 ≤ thr) :
    ((find_near_duplicate vector thr user_id store).isSome ↔
      ∃ c ∈ store.filter (fun c => user_id.isNone || (user_id == some c.user_id)),
        thr < _cosine vector c.vector) ∧
    (∀ r s, find_near_duplicate vector thr user_id store = some (r, s) →
      s = _cosine vector r.vector ∧ thr < s ∧
      (∀ c ∈ store.filter (fun c => user_id.isNone || (user_id == some c.user_id)),
        _cosine vector c.vector ≤ s) ∧
      (∃ l1 l2, store.filter (fun c => user_id.isNone || (user_id == some c.user_id)) =
          l1 ++ r :: l2 ∧ ∀ c ∈ l1, _cosine vector c.vector < s)) := by
  set cands := store.filter (fun c => user_id.isNone || (user_id == some c.user_id)) with hcands
  obtain ⟨hn, hs⟩ := findLoop_spec vector thr cands none 0 ⟨rfl, hthr⟩
  constructor
  · constructor
    · intro hsome
      rcases hres : findLoop vector thr cands none 0 with _ | rs
      · rw [find_near_duplicate, ← hcands, hres] at hsome
        simp at hsome
      · obtain ⟨hsc, hthr2, _, _, hdisj⟩ := hs rs hres
        rcases hdisj with ⟨l1, l2, hsplit, _, _⟩ | ⟨heq, _⟩
        · exact ⟨rs.1, by rw [hsplit]; simp, hsc ▸ hthr2⟩
        · cases heq
    · intro ⟨c, hc, hcthr⟩
      rcases hres : find_near_duplicate vector thr user_id store with _ | rs
      · rw [find_near_duplicate, ← hcands] at hres
        obtain ⟨_, hall⟩ := hn hres
        exact absurd hcthr (not_lt.mpr (hall c hc))
      · simp
  · intro r s hres
    rw [find_near_duplicate, ← hcands] at hres
    obtain ⟨hsc, hthr2, _, hmax, hdisj⟩ := hs (r, s) hres
    refine ⟨hsc, hthr2, ?_, ?_⟩
    · intro c hc
      by_cases hcthr : thr < _cosine vector c.vector
      · exact hmax c hc hcthr
      · exact le_trans (not_lt.mp hcthr) (le_of_lt hthr2)
    · rcases hdisj with ⟨l1, l2, hsplit, _, hall⟩ | ⟨heq, _⟩
      · exact ⟨l1, l2, hsplit, hall⟩
      · cases heq

/-- Evaluation of the claim-C2 specification at the concrete threshold 4/5,
an empty scope and a one-record scope. -/
theorem find_near_duplicate_spec_witness :
    (0 : ℝ) ≤ 4 / 5 ∧
    (((find_near_duplicate [(1 : ℝ), 0] (4 / 5) (some "u") []).isSome ↔
      ∃ c ∈ List.filter (fun c => (some "u").isNone || (some "u" == some c.user_id)) ([] : List EmbRec),
        4 / 5 < _cosine [(1 : ℝ), 0] c.vector)) :=
  ⟨by norm_num, (find_near_duplicate_spec [(1 : ℝ), 0] (4 / 5) (some "u") [] (by norm_num)).1⟩

/-! ## `search_vectors` (`ai_service/main.py`, lines 137-156)

```python
def search_vectors(user_id, vec, kind, thresh):
    ... SELECT post_id, vector FROM embeddings WHERE user_id = %s AND kind = %s ...
    best = None
    best_score = 0.0
    for row in cur.fetchall():
        stored = np.frombuffer(bytes(row[1]), dtype=np.float32)
        if stored.shape != vec.shape:
            # Skip vectors from earlier runs with different dimensionality
            continue
        num = float(np.dot(vec, stored))
        denom = float(np.linalg.norm(vec) * np.linalg.norm(stored) + 1e-9)
        score = num / denom
        if score > thresh and score > best_score:
            best = {"post_id": row[0], "score": score}
            best_score = score
    return best
```

The Postgres `embeddings` table of the AI service is modelled as a list of
`AIRow` in row-fetch order; the SQL `WHERE` clause becomes a filter. -/

structure AIRow where
  user_id : String
  post_id : String
  kind : String
  vector : List ℝ

noncomputable def simScore (a b : List ℝ) : ℝ :=
  dotp a b / (Real.sqrt (sumSq a) * Real.sqrt (sumSq b) + 1e-9)

noncomputable def searchLoop (vec : List ℝ) (thresh : ℝ) :
    List AIRow → Option (String × ℝ) → ℝ → Option (String × ℝ)
  | [], best, _ => best
  | row :: rest, best, best_score =>
    if row.vector.length != vec.length then searchLoop vec thresh rest best best_score
    else
      let score := simScore vec row.vector
      if score > thresh ∧ score > best_score then
        searchLoop vec thresh rest (some (row.post_id, score)) score
      else searchLoop vec thresh rest best best_score

noncomputable def search_vectors (user_id : String) (vec : List ℝ) (kind : String) (thresh : ℝ)
    (table : List AIRow) : Option (String × ℝ) :=
  searchLoop vec thresh (table.filter fun r => r.user_id == user_id && r.kind == kind) none 0

theorem sumSq_nonneg (a : List ℝ) : 0 ≤ sumSq a := by
  induction a with
  | nil => exact le_of_eq rfl
  | cons x xs ih => exact add_nonneg (mul_self_nonneg x) ih

/-- Records of mismatched dimensionality never influence the scan: the loop
result over any row list equals the result over only the dimension-matching
rows. -/
theorem searchLoop_skip (vec : List ℝ) (thresh : ℝ) :
    ∀ (l : List AIRow) (best : Option (String × ℝ)) (bs : ℝ),
      searchLoop vec thresh l best bs =
        searchLoop vec thresh (l.filter fun r => r.vector.length == vec.length) best bs := by
  intro l
  induction l with
  | nil => intro best bs; rfl
  | cons row rest ih =>
    intro best bs
    by_cases hlen : row.vector.length = vec.length
    · have hne : (row.vector.length != vec.length) = false := by simp [hlen]
      have hkeep : (row.vector.length == vec.length) = true := by simp [hlen]
      simp only [searchLoop, List.filter_cons, hne, hkeep, Bool.false_eq_true, if_false, if_true]
      by_cases hsc : simScore vec row.vector > thresh ∧ simScore vec row.vector > bs
      · rw [if_pos hsc, if_pos hsc, ih]
      · rw [if_neg hsc, if_neg hsc, ih]
    · have hne : (row.vector.length != vec.length) = true := by simp [hlen]
      have hkeep : (row.vector.length == vec.length) = false := by simp [hlen]
      simp only [searchLoop, List.filter_cons, hne, hkeep, Bool.false_eq_true, if_false, if_true]
      exact ih best bs

/-- Provenance of a scan hit: any returned match either was the carried-in
accumulator or names a dimension-matching row of the list, scored by the
epsilon-regularized cosine formula. -/
theorem searchLoop_mem (vec : List ℝ) (thresh : ℝ) :
    ∀ (l : List AIRow) (best : Option (String × ℝ)) (bs : ℝ) (p : String) (s : ℝ),
      searchLoop vec thresh l best bs = some (p, s) →
      best = some (p, s) ∨
        ∃ r ∈ l, r.vector.length = vec.length ∧ p = r.post_id ∧ s = simScore vec r.vector := by
  intro l
  induction l with
  | nil =>
    intro best bs p s hres
    exact Or.inl hres
  | cons row rest ih =>
    intro best bs p s hres
    by_cases hlen : row.vector.length = vec.length
    · have hne : (row.vector.length != vec.length) = false := by simp [hlen]
      simp only [searchLoop, hne, Bool.false_eq_true, if_false] at hres
      by_cases hsc : simScore vec row.vector > thresh ∧ simScore vec row.vector > bs
      · rw [if_pos hsc] at hres
        rcases ih _ _ _ _ hres with heq | ⟨r, hr, hlr, hpr, hsr⟩
        · obtain ⟨h1, h2⟩ := Prod.mk.injEq .. ▸ Option.some.inj heq
          exact Or.inr ⟨row, List.mem_cons_self .., hlen, h1.symm, h2.symm⟩
        · exact Or.inr ⟨r, List.mem_cons_of_mem _ hr, hlr, hpr, hsr⟩
      · rw [if_neg hsc] at hres
        rcases ih _ _ _ _ hres with heq | ⟨r, hr, hlr, hpr, hsr⟩
        · exact Or.inl heq
        · exact Or.inr ⟨r, List.mem_cons_of_mem _ hr, hlr, hpr, hsr⟩
    · have hne : (row.vector.length != vec.length) = true := by simp [hlen]
      simp only [searchLoop, hne, if_true] at hres
      rcases ih _ _ _ _ hres with heq | ⟨r, hr, hlr, hpr, hsr⟩
      · exact Or.inl heq
      · exact Or.inr ⟨r, List.mem_cons_of_mem _ hr, hlr, hpr, hsr⟩

/-- Claim C3: during the AI-service duplicate scan, stored records whose
dimensionality differs from the query are skipped as not comparable (removing
them from the table never changes the result, so they are never coerced to a
zero similarity), every hit names a dimension-matching row of the scanned
`(user_id, kind)` scope scored as `dot(a,b) / (||a||*||b|| + 1e-9)`, and that
epsilon makes every denominator strictly positive, so no division by zero
occurs. -/
theorem search_vectors_spec (user_id : String) (vec : List ℝ) (kind : String) (thresh : ℝ)
    (table : List AIRow) :
    (search_vectors user_id vec kind thresh table =
      search_vectors user_id vec kind thresh
        (table.filter fun r => r.vector.length == vec.length)) ∧
    (∀ p s, search_vectors user_id vec kind thresh table = some (p, s) →
      ∃ r ∈ table, r.user_id = user_id ∧ r.kind = kind ∧ r.vector.length = vec.length ∧
        p = r.post_id ∧
        s = dotp vec r.vector / (Real.sqrt (sumSq vec) * Real.sqrt (sumSq r.vector) + 1e-9)) ∧
    (∀ a b : List ℝ, 0 < Real.sqrt (sumSq a) * Real.sqrt (sumSq b) + 1e-9) := by
  refine ⟨?_, ?_, ?_⟩
  · rw [search_vectors, search_vectors, searchLoop_skip, List.filter_filter, List.filter_filter]
    congr 1
    apply List.filter_congr
    intro r _
    rw [Bool.and_comm]
  · intro p s hres
    rw [search_vectors] at hres
    rcases searchLoop_mem vec thresh _ none 0 p s hres with heq | ⟨r, hr, hlr, hpr, hsr⟩
    · cases heq
    · rw [List.mem_filter] at hr
      obtain ⟨hmem, hscope⟩ := hr
      rw [Bool.and_eq_true, beq_iff_eq, beq_iff_eq] at hscope
      exact ⟨r, hmem, hscope.1, hscope.2, hlr, hpr, hsr⟩
  · intro a b
    have hm : 0 ≤ Real.sqrt (sumSq a) * Real.sqrt (sumSq b) :=
      mul_nonneg (Real.sqrt_nonneg _) (Real.sqrt_nonneg _)
    have he : (0 : ℝ) < 1e-9 := by norm_num
    linarith

/-- Evaluation of the claim-C3 specification at a concrete scope. -/
theorem search_vectors_spec_witness :
    (search_vectors "u" [(1 : ℝ)] "mobilenet" (4 / 5) [] =
      search_vectors "u" [(1 : ℝ)] "mobilenet" (4 / 5)
        (List.filter (fun r => r.vector.length == [(1 : ℝ)].length) [])) ∧
    (0 : ℝ) < Real.sqrt (sumSq [(1 : ℝ)]) * Real.sqrt (sumSq [(2 : ℝ)]) + 1e-9 :=
  ⟨(search_vectors_spec "u" [(1 : ℝ)] "mobilenet" (4 / 5) []).1,
   (search_vectors_spec "u" [(1 : ℝ)] "mobilenet" (4 / 5) []).2.2 [(1 : ℝ)] [(2 : ℝ)]⟩

/-! ## Backend persistent state (`backend/app/db.py`)

The Postgres tables used by the verification pipeline, modelled as lists in
row order: `posts` (the fields the pipeline reads or writes; the media/caption
pass-through columns are carried by the route unchanged and are omitted),
`credits` (primary key `user_id`), and `embeddings`.  `update_post` applies a
field update to every row matching the id (the SQL `UPDATE ... WHERE id`),
`get_post` returns the first matching row (`SELECT ... WHERE id`). -/

structure PostDoc where
  id : String
  user_id : String
  status : String
  verified : Bool
  credits_awarded : Int
  review_notes : Option String
deriving DecidableEq

structure DB where
  posts : List PostDoc
  credits : List (String × Int)
  embeddings : List EmbRec

def add_post (doc : PostDoc) (db : DB) : DB := { db with posts := db.posts ++ [doc] }

def update_post (post_id : String) (upd : PostDoc → PostDoc) (db : DB) : DB :=
  { db with posts := db.posts.map fun p => if p.id == post_id then upd p else p }

def get_post (post_id : String) (db : DB) : Option PostDoc :=
  db.posts.find? fun p => p.id == post_id

/-- `get_credits` (`db.py`, lines 355-360): row value or 0. -/
def get_credits (user_id : String) (db : DB) : Int :=
  ((db.credits.find? fun r => r.1 == user_id).map Prod.snd).getD 0

/-- `adjust_credits` (`db.py`, lines 341-352): read current (0 if absent),
floor the new balance at zero, then `UPDATE` or `INSERT`. -/
def adjust_credits (user_id : String) (delta : Int) (db : DB) : Int × DB :=
  let row := db.credits.find? fun r => r.1 == user_id
  let current := (row.map Prod.snd).getD 0
  let new_val := max 0 (current + delta)
  match row with
  | some _ =>
    (new_val,
      { db with credits := db.credits.map fun r => if r.1 == user_id then (r.1, new_val) else r })
  | none => (new_val, { db with credits := db.credits ++ [(user_id, new_val)] })

/-- `save_embedding` (`db.py`, lines 363-370): appends a row. -/
def save_embedding (post_id user_id : String) (vector : List ℝ) (db : DB) : DB :=
  { db with embeddings := db.embeddings ++ [⟨post_id, user_id, vector⟩] }

namespace DataStore

/-- `DataStore.adjust_credits` (`backend/app/datastore.py`, lines 84-90).  The
JSON credits dict with its `.get(user_id, 0)` default is modelled as a total
function. -/
def adjust_credits (credits : String → Int) (user_id : String) (delta : Int) :
    Int × (String → Int) :=
  let current := credits user_id
  let new_val := max 0 (current + delta)
  (new_val, fun u => if u = user_id then new_val else credits u)

end DataStore

@[simp] theorem update_post_credits (post_id : String) (upd : PostDoc → PostDoc) (db : DB) :
    (update_post post_id upd db).credits = db.credits := rfl

@[simp] theorem update_post_embeddings (post_id : String) (upd : PostDoc → PostDoc) (db : DB) :
    (update_post post_id upd db).embeddings = db.embeddings := rfl

@[simp] theorem add_post_credits (doc : PostDoc) (db : DB) :
    (add_post doc db).credits = db.credits := rfl

@[simp] theorem add_post_embeddings (doc : PostDoc) (db : DB) :
    (add_post doc db).embeddings = db.embeddings := rfl

@[simp] theorem save_embedding_posts (post_id user_id : String) (vector : List ℝ) (db : DB) :
    (save_embedding post_id user_id vector db).posts = db.posts := rfl

@[simp] theorem save_embedding_credits (post_id user_id : String) (vector : List ℝ) (db : DB) :
    (save_embedding post_id user_id vector db).credits = db.credits := rfl

@[simp] theorem adjust_credits_posts (user_id : String) (delta : Int) (db : DB) :
    (adjust_credits user_id delta db).2.posts = db.posts := by
  rcases hrow : db.credits.find? fun r => r.1 == user_id with _ | r <;>
    simp [adjust_credits, hrow]

@[simp] theorem adjust_credits_embeddings (user_id : String) (delta : Int) (db : DB) :
    (adjust_credits user_id delta db).2.embeddings = db.embeddings := by
  rcases hrow : db.credits.find? fun r => r.1 == user_id with _ | r <;>
    simp [adjust_credits, hrow]

theorem adjust_credits_ret (user_id : String) (delta : Int) (db : DB) :
    (adjust_credits user_id delta db).1 = max 0 (get_credits user_id db + delta) := by
  rcases hrow : db.credits.find? fun r => r.1 == user_id with _ | r <;>
    simp [adjust_credits, get_credits, hrow]

theorem find?_append_none {α : Type} (p : α → Bool) :
    ∀ l₁ l₂ : List α, l₁.find? p = none → (l₁ ++ l₂).find? p = l₂.find? p := by
  intro l₁
  induction l₁ with
  | nil => intro l₂ _; rfl
  | cons x rest ih =>
    intro l₂ hnone
    rw [List.find?_cons] at hnone
    rcases hpx : p x with _ | _
    · rw [List.cons_append, List.find?_cons, hpx]
      exact ih l₂ (by rw [hpx] at hnone; exact hnone)
    · rw [hpx] at hnone
      cases hnone

theorem find?_map_update (u : String) (nv : Int) :
    ∀ l : List (String × Int), (l.find? fun r => r.1 == u).isSome →
      ((l.map fun r => if r.1 == u then (r.1, nv) else r).find? fun r => r.1 == u) =
        some (u, nv) := by
  intro l
  induction l with
  | nil => intro hsome; cases hsome
  | cons x rest ih =>
    intro hsome
    rcases hx : x.1 == u with _ | _
    · rw [List.map_cons, if_neg (by simp [hx]), List.find?_cons, hx]
      rw [List.find?_cons, hx] at hsome
      exact ih hsome
    · rw [List.map_cons, if_pos hx]
      rw [List.find?_cons]
      have : ((x.1, nv).1 == u) = true := hx
      rw [this]
      have hxu : x.1 = u := by simpa using hx
      rw [hxu]

theorem adjust_credits_stores (user_id : String) (delta : Int) (db : DB) :
    get_credits user_id (adjust_credits user_id delta db).2 =
      (adjust_credits user_id delta db).1 := by
  rcases hrow : db.credits.find? fun r => r.1 == user_id with _ | r
  · rw [get_credits]
    simp only [adjust_credits, hrow]
    rw [find?_append_none _ _ _ hrow]
    simp [List.find?_cons]
  · rw [get_credits]
    simp only [adjust_credits, hrow]
    rw [find?_map_update _ _ _ (by rw [hrow]; rfl)]
    rfl

/-- The ledger balance after an adjustment, in closed form. -/
theorem get_credits_adjust (user_id : String) (delta : Int) (db : DB) :
    get_credits user_id (adjust_credits user_id delta db).2 =
      max 0 (get_credits user_id db + delta) := by
  rw [adjust_credits_stores, adjust_credits_ret]

/-- Claim C7: for every user and every signed delta, `adjust_credits` (both the
Postgres implementation in `db.py` and the JSON-file `DataStore` twin) returns
and stores exactly `max 0 (previous + delta)`, so the resulting balance is
never below zero regardless of delta magnitude. -/
theorem adjust_credits_floor (user_id : String) (delta : Int) (db : DB)
    (credits : String → Int) :
    0 ≤ (adjust_credits user_id delta db).1 ∧
    (adjust_credits user_id delta db).1 = max 0 (get_credits user_id db + delta) ∧
    get_credits user_id (adjust_credits user_id delta db).2 =
      (adjust_credits user_id delta db).1 ∧
    0 ≤ (DataStore.adjust_credits credits user_id delta).1 ∧
    (DataStore.adjust_credits credits user_id delta).1 = max 0 (credits user_id + delta) ∧
    (DataStore.adjust_credits credits user_id delta).2 user_id =
      (DataStore.adjust_credits credits user_id delta).1 := by
  refine ⟨?_, adjust_credits_ret user_id delta db, adjust_credits_stores user_id delta db,
    le_max_left _ _, rfl, by simp [DataStore.adjust_credits]⟩
  rw [adjust_credits_ret]
  exact le_max_left _ _

/-! ## Admin overrides (`backend/app/routes/posts.py`, lines 170-228)

```python
@router.post("/{post_id}/approve", ...)
async def approve_post(post_id, credits=10, review_notes=None, ...):
    existing = get_post(post_id)
    if not existing: raise HTTPException(404)
    new_credits = max(0, credits)
    old_credits = int(existing.get("credits_awarded") or 0)
    delta = new_credits - old_credits
    update_post(post_id, {"verified": True, "status": "verified",
                          "review_notes": review_notes or "Approved by admin",
                          "credits_awarded": new_credits})
    if delta != 0: adjust_credits(existing["user_id"], delta)

@router.post("/{post_id}/reject", ...)
async def reject_post(post_id, reason=None, ...):
    existing = get_post(post_id)
    if not existing: raise HTTPException(404)
    old_credits = int(existing.get("credits_awarded") or 0)
    update_post(post_id, {"verified": False, "status": "rejected",
                          "review_notes": reason or "Rejected by admin",
                          "credits_awarded": 0})
    if old_credits: adjust_credits(existing["user_id"], -old_credits)
```

The 404 branch is modelled by `none`; the response shaping after the state
change is not part of the state transition. -/

/-- Python string truthiness of an optional argument: `arg or default`. -/
def pyOr (o : Option String) (dflt : String) : String :=
  match o with
  | some s => if s = "" then dflt else s
  | none => dflt

/-- The field updates of the approve endpoint's `update_post` call. -/
def approveUpd (review_notes : Option String) (new_credits : Int) (p : PostDoc) : PostDoc :=
  { p with verified := true, status := "verified",
           review_notes := some (pyOr review_notes "Approved by admin"),
           credits_awarded := new_credits }

/-- The field updates of the reject endpoint's `update_post` call. -/
def rejectUpd (reason : Option String) (p : PostDoc) : PostDoc :=
  { p with verified := false, status := "rejected",
           review_notes := some (pyOr reason "Rejected by admin"),
           credits_awarded := 0 }

def approve_post (post_id : String) (credits : Int) (review_notes : Option String) (db : DB) :
    Option DB :=
  match get_post post_id db with
  | none => none
  | some existing =>
    let new_credits := max 0 credits
    let old_credits := existing.credits_awarded
    let delta := new_credits - old_credits
    let db1 := update_post post_id (approveUpd review_notes new_credits) db
    some (if delta ≠ 0 then (adjust_credits existing.user_id delta db1).2 else db1)

def reject_post (post_id : String) (reason : Option String) (db : DB) : Option DB :=
  match get_post post_id db with
  | none => none
  | some existing =>
    let old_credits := existing.credits_awarded
    let db1 := update_post post_id (rejectUpd reason) db
    some (if old_credits ≠ 0 then (adjust_credits existing.user_id (-old_credits) db1).2 else db1)

@[simp] theorem get_credits_update_post (u post_id : String) (upd : PostDoc → PostDoc) (db : DB) :
    get_credits u (update_post post_id upd db) = get_credits u db := rfl

theorem get_post_update (post_id : String) (upd : PostDoc → PostDoc) (db : DB)
    (hid : ∀ p, (upd p).id = p.id) :
    get_post post_id (update_post post_id upd db) = (get_post post_id db).map upd := by
  rw [get_post, get_post, update_post]
  induction db.posts with
  | nil => rfl
  | cons p rest ih =>
    rcases hp : p.id == post_id with _ | _
    · rw [List.map_cons, if_neg (by simp [hp]), List.find?_cons, hp, List.find?_cons, hp]
      exact ih
    · rw [List.map_cons, if_pos hp, List.find?_cons]
      have hup : ((upd p).id == post_id) = true := by rw [hid p]; exact hp
      rw [hup, List.find?_cons, hp]
      rfl

theorem get_post_adjust (post_id u : String) (delta : Int) (db : DB) :
    get_post post_id (adjust_credits u delta db).2 = get_post post_id db := by
  rw [get_post, get_post, adjust_credits_posts]

/-- Claim C8 (amended): approving computes the signed delta against the
previously awarded amount and applies only that to the ledger, so re-approving
with the same amount is a ledger no-op; and when the post had no previously
awarded credits (and the stored balance is the usual non-negative one),
approve-then-reject returns the owner's balance exactly to its pre-approve
value.  (With a prior award and a balance already drained below it, the zero
floor of `adjust_credits` can clip the reversal — see the counterexample.) -/
theorem approve_reject_ledger_spec (post_id : String) (c : Int) (n n2 rn : Option String)
    (db : DB) (p : PostDoc)
    (hp : get_post post_id db = some p)
    (h0 : p.credits_awarded = 0)
    (hb : 0 ≤ get_credits p.user_id db) :
    (∀ db1 db2, approve_post post_id c n db = some db1 →
      approve_post post_id c n2 db1 = some db2 → db2.credits = db1.credits) ∧
    (∀ db1 db2, approve_post post_id c n db = some db1 →
      reject_post post_id rn db1 = some db2 →
      get_credits p.user_id db2 = get_credits p.user_id db) := by
  have hcred : (approveUpd n (max 0 c) p).credits_awarded = max 0 c := rfl
  have huser : (approveUpd n (max 0 c) p).user_id = p.user_id := rfl
  have happly : ∀ db1, approve_post post_id c n db = some db1 →
      get_post post_id db1 = some (approveUpd n (max 0 c) p) ∧
      get_credits p.user_id db1 = get_credits p.user_id db + max 0 c := by
    intro db1 h1
    simp only [approve_post, hp, h0, sub_zero] at h1
    by_cases hc : max 0 c = 0
    · rw [if_neg (by simp [hc])] at h1
      have hdb1 := Option.some.inj h1
      subst hdb1
      refine ⟨?_, ?_⟩
      · rw [get_post_update post_id (approveUpd n (max 0 c)) db (fun _ => rfl), hp]
        rfl
      · rw [get_credits_update_post, hc, add_zero]
    · rw [if_pos hc] at h1
      have hdb1 := Option.some.inj h1
      subst hdb1
      refine ⟨?_, ?_⟩
      · rw [get_post_adjust, get_post_update post_id (approveUpd n (max 0 c)) db (fun _ => rfl),
          hp]
        rfl
      · rw [get_credits_adjust, get_credits_update_post]
        have hmc : 0 ≤ max 0 c := le_max_left _ _
        omega
  constructor
  · intro db1 db2 h1 h2
    obtain ⟨hget1, _⟩ := happly db1 h1
    simp only [approve_post, hget1, hcred, sub_self] at h2
    rw [if_neg (fun hcon : (0 : Int) ≠ 0 => hcon rfl)] at h2
    have hdb2 := Option.some.inj h2
    subst hdb2
    rw [update_post_credits]
  · intro db1 db2 h1 h2
    obtain ⟨hget1, hbal1⟩ := happly db1 h1
    simp only [reject_post, hget1, hcred, huser] at h2
    by_cases hc : max 0 c = 0
    · rw [if_neg (by simp [hc])] at h2
      have hdb2 := Option.some.inj h2
      subst hdb2
      rw [get_credits_update_post, hbal1, hc, add_zero]
    · rw [if_pos hc] at h2
      have hdb2 := Option.some.inj h2
      subst hdb2
      rw [get_credits_adjust, get_credits_update_post, hbal1]
      have hmc : 0 ≤ max 0 c := le_max_left _ _
      omega

/-- Evaluation of the claim-C8 specification at a concrete pending post. -/
theorem approve_reject_ledger_spec_witness :
    (get_post "p1" ⟨[⟨"p1", "u", "pending", false, 0, none⟩], [], []⟩ =
        some ⟨"p1", "u", "pending", false, 0, none⟩ ∧
      (⟨"p1", "u", "pending", false, 0, none⟩ : PostDoc).credits_awarded = 0 ∧
      0 ≤ get_credits "u" ⟨[⟨"p1", "u", "pending", false, 0, none⟩], [], []⟩) ∧
    (∀ db1 db2,
      approve_post "p1" 15 none ⟨[⟨"p1", "u", "pending", false, 0, none⟩], [], []⟩ = some db1 →
      reject_post "p1" none db1 = some db2 →
      get_credits "u" db2 =
        get_credits "u" ⟨[⟨"p1", "u", "pending", false, 0, none⟩], [], []⟩) :=
  ⟨⟨by decide, by decide, by decide⟩,
    (approve_reject_ledger_spec "p1" 15 none none none
      ⟨[⟨"p1", "u", "pending", false, 0, none⟩], [], []⟩
      ⟨"p1", "u", "pending", false, 0, none⟩ (by decide) (by decide) (by decide)).2⟩

/-- Counterexample to claim C8 as stated: with a post previously awarded 7
credits while the owner's stored balance is 5 (credits can be spent through
the rewards routes), approving with 3 and then rejecting leaves the balance
at 0, not back at 5 — the zero floor clips the reversal, so approve-then-reject
does not fully reverse the award. -/
theorem approve_reject_floor_clipping :
    ((approve_post "p1" 3 none
        ⟨[⟨"p1", "u", "verified", true, 7, none⟩], [("u", 5)], []⟩).bind
      (reject_post "p1" none)).map (get_credits "u") = some 0 ∧
    get_credits "u" ⟨[⟨"p1", "u", "verified", true, 7, none⟩], [("u", 5)], []⟩ = 5 := by
  constructor
  · rfl
  · rfl

/-! ## `assess_image_authenticity` (`backend/app/services/verification.py`, lines 93-119)

```python
async def assess_image_authenticity(content, settings):
    if settings.offline_mode or not settings.gemini_api_key:
        return False, "offline-auto-verified"
    ...
    try:
        response = model.generate_content(...)
        text = (response.text or "").strip().lower()
        verdict = "yes" in text and "no" not in text[:10]
        return verdict, text
    except Exception as exc:
        return False, f"gemini-error: {exc}"
```

The external generative call is modelled by a `GeminiOutcome` parameter:
`ok text` for a successful call returning `text` (`response.text or ""` makes
it a string), `err msg` for a raised exception rendered as `msg`. -/

/-- Runtime configuration (`backend/app/config.py`): the fields the
verification pipeline reads.  `gemini_api_key` is `os.getenv` result, so
`none` or the empty string are falsy. -/
structure Settings where
  offline_mode : Bool
  gemini_api_key : Option String
  default_reward_per_post : Int

/-- Python truthiness of an optional string. -/
def truthy : Option String → Bool
  | none => false
  | some s => s != ""

inductive GeminiOutcome where
  | ok (text : String)
  | err (msg : String)

/-- Python substring test `needle in hay` on explicit character lists. -/
def containsList (needle : List Char) : List Char → Bool
  | [] => needle.isEmpty
  | c :: rest => needle.isPrefixOf (c :: rest) || containsList needle rest

/-- Python `s.strip()`: drop whitespace from both ends. -/
def pyStrip (l : List Char) : List Char :=
  ((l.dropWhile Char.isWhitespace).reverse.dropWhile Char.isWhitespace).reverse

/-- Python `s.lower()`. -/
def pyLower (l : List Char) : List Char := l.map Char.toLower

/-- Python `s.startswith(p)`. -/
def strStartsWith (s p : String) : Bool := p.toList.isPrefixOf s.toList

def assess_image_authenticity (s : Settings) (resp : GeminiOutcome) : Bool × String :=
  if s.offline_mode || !truthy s.gemini_api_key then (false, "offline-auto-verified")
  else
    match resp with
    | .ok t =>
      let text := pyLower (pyStrip t.toList)
      (containsList "yes".toList text && !containsList "no".toList (text.take 10),
        String.mk text)
    | .err msg => (false, "gemini-error: " ++ msg)

theorem geminiError_starts (msg : String) :
    strStartsWith ("gemini-error: " ++ msg) "gemini-error" = true := by
  have h : ("gemini-error: " ++ msg).toList = "gemini-error: ".toList ++ msg.toList :=
    String.data_append ..
  rw [strStartsWith, h]
  rfl

/-- Claim C5 (amended): offline mode or a missing/empty AI credential yields
`(false, "offline-auto-verified")`; when configured and the call succeeds the
response text is *stripped of surrounding whitespace* and lower-cased, and the
verdict is true exactly when "yes" appears anywhere in that stripped
lower-cased text and "no" does not appear in its first 10 characters (the
unstripped text's window differs when the response has leading whitespace —
see the counterexample); on any call failure the verdict is false with a
rationale beginning "gemini-error". -/
theorem assess_image_authenticity_spec (s : Settings) (t msg : String) :
    ((s.offline_mode || !truthy s.gemini_api_key) = true →
      assess_image_authenticity s (.ok t) = (false, "offline-auto-verified") ∧
      assess_image_authenticity s (.err msg) = (false, "offline-auto-verified")) ∧
    ((s.offline_mode || !truthy s.gemini_api_key) = false →
      assess_image_authenticity s (.ok t) =
        (containsList "yes".toList (pyLower (pyStrip t.toList)) &&
            !containsList "no".toList ((pyLower (pyStrip t.toList)).take 10),
          String.mk (pyLower (pyStrip t.toList))) ∧
      assess_image_authenticity s (.err msg) = (false, "gemini-error: " ++ msg) ∧
      strStartsWith ("gemini-error: " ++ msg) "gemini-error" = true) := by
  constructor
  · intro hcond
    constructor
    · rw [assess_image_authenticity, if_pos hcond]
    · rw [assess_image_authenticity, if_pos hcond]
  · intro hcond
    refine ⟨?_, ?_, geminiError_starts msg⟩
    · rw [assess_image_authenticity, if_neg (by rw [hcond]; exact Bool.false_ne_true)]
    · rw [assess_image_authenticity, if_neg (by rw [hcond]; exact Bool.false_ne_true)]

/-- Evaluation of the claim-C5 specification in both configurations. -/
theorem assess_image_authenticity_spec_witness :
    assess_image_authenticity ⟨true, none, 10⟩ (.ok "any") = (false, "offline-auto-verified") ∧
    assess_image_authenticity ⟨false, some "k", 10⟩ (.ok " YES ") = (true, "yes") ∧
    assess_image_authenticity ⟨false, some "k", 10⟩ (.err "boom") =
      (false, "gemini-error: boom") := by
  have h1 := (assess_image_authenticity_spec ⟨true, none, 10⟩ "any" "e").1 (by decide)
  have h2 := (assess_image_authenticity_spec ⟨false, some "k", 10⟩ " YES " "boom").2 (by decide)
  refine ⟨h1.1, ?_, h2.2.1⟩
  rw [h2.1]
  decide

/-- Counterexample to claim C5 as stated: the code strips the text before the
first-10-characters window.  For a response of ten spaces then "x no yes",
"yes" appears in the lower-cased response text and "no" does not appear in its
first 10 characters (all spaces), so the claim predicts a true verdict, but
the code returns false because after stripping, "no" falls inside the
window. -/
theorem assess_leading_whitespace_divergence :
    (assess_image_authenticity ⟨false, some "k", 10⟩ (.ok "          x no yes")).1 = false ∧
    containsList "yes".toList (pyLower "          x no yes".toList) = true ∧
    containsList "no".toList ((pyLower "          x no yes".toList).take 10) = false := by
  refine ⟨?_, ?_, ?_⟩ <;> decide

/-! ## `call_ai_service` (`backend/app/ai_client.py`, lines 16-45)

```python
async def call_ai_service(media_bytes, user_id, post_id):
    if not AI_SERVICE_URL:
        return None
    ...
    attempts = max(1, AI_SERVICE_RETRIES)
    async with httpx.AsyncClient(timeout=AI_SERVICE_TIMEOUT) as client:
        last_error = None
        for attempt in range(attempts):
            try:
                resp = await client.post(...)
                if resp.status_code == 200:
                    return resp.json()
                last_error = resp.text
            except Exception as exc:
                last_error = str(exc)
            if attempt < attempts - 1:
                await asyncio.sleep(2)
        return {"status": "pending", "notes": "Pending manual review (AI service unavailable)"}
```

The network is modelled by a function from attempt index to outcome; the
fixed 2-second `asyncio.sleep` between attempts is real time and has no
state effect, so it does not appear in the embedding. -/

/-- A response dict of the remote verification microservice: each key may be
absent (`.get` defaults apply at the use sites). -/
structure AIVerifyResponse where
  status : Option String
  credits_awarded : Option Int
  notes : Option String
deriving DecidableEq

inductive Attempt where
  | response (code : ℕ) (body : AIVerifyResponse)
  | exception (msg : String)

def isSuccess : Attempt → Bool
  | .response code _ => code == 200
  | .exception _ => false

/-- The dict synthesized after the loop exhausts all attempts. -/
def unavailableResult : AIVerifyResponse :=
  ⟨some "pending", none, some "Pending manual review (AI service unavailable)"⟩

/-- The retry loop over the outcomes of the remaining attempts. -/
def callLoop : List Attempt → AIVerifyResponse
  | [] => unavailableResult
  | a :: rest =>
    match a with
    | .response code body => if code = 200 then body else callLoop rest
    | .exception _ => callLoop rest

def call_ai_service (url : Option String) (retries : Int) (outcome : ℕ → Attempt) :
    Option AIVerifyResponse :=
  if !truthy url then none
  else some (callLoop ((List.range (max 1 retries).toNat).map outcome))

theorem callLoop_all_fail : ∀ l : List Attempt, (∀ a ∈ l, isSuccess a = false) →
    callLoop l = unavailableResult := by
  intro l
  induction l with
  | nil => intro _; rfl
  | cons a rest ih =>
    intro hall
    rcases a with ⟨code, body⟩ | msg
    · have hcode : (code == 200) = false := hall _ (List.mem_cons_self ..)
      rw [callLoop]
      rw [if_neg (by simpa using hcode)]
      exact ih fun x hx => hall x (List.mem_cons_of_mem _ hx)
    · rw [callLoop]
      exact ih fun x hx => hall x (List.mem_cons_of_mem _ hx)

theorem callLoop_first_success : ∀ (l1 : List Attempt) (b : AIVerifyResponse) (l2 : List Attempt),
    (∀ a ∈ l1, isSuccess a = false) → callLoop (l1 ++ .response 200 b :: l2) = b := by
  intro l1
  induction l1 with
  | nil =>
    intro b l2 _
    rw [List.nil_append, callLoop]
    rw [if_pos rfl]
  | cons a rest ih =>
    intro b l2 hall
    rcases a with ⟨code, body⟩ | msg
    · have hcode : (code == 200) = false := hall _ (List.mem_cons_self ..)
      rw [List.cons_append, callLoop]
      rw [if_neg (by simpa using hcode)]
      exact ih b l2 fun x hx => hall x (List.mem_cons_of_mem _ hx)
    · rw [List.cons_append, callLoop]
      exact ih b l2 fun x hx => hall x (List.mem_cons_of_mem _ hx)

/-- Claim C9: with a configured service URL, the caller makes `max(1, retries)`
attempts; a non-200 response or an exception just moves to the next attempt
(the result depends only on the first `max(1, retries)` outcomes); the first
attempt returning status 200 supplies the returned body; and if every attempt
fails, the caller synthesizes
`{status: "pending", notes: "Pending manual review (AI service unavailable)"}`
instead of raising. -/
theorem call_ai_service_spec (url : Option String) (retries : Int) (outcome g : ℕ → Attempt)
    (hurl : truthy url = true) :
    1 ≤ (max 1 retries).toNat ∧
    ((∀ i < (max 1 retries).toNat, isSuccess (outcome i) = false) →
      call_ai_service url retries outcome = some unavailableResult) ∧
    ((∀ i < (max 1 retries).toNat, outcome i = g i) →
      call_ai_service url retries outcome = call_ai_service url retries g) ∧
    (∀ (l1 : List Attempt) (b : AIVerifyResponse) (l2 : List Attempt),
      (List.range (max 1 retries).toNat).map outcome = l1 ++ .response 200 b :: l2 →
      (∀ a ∈ l1, isSuccess a = false) →
      call_ai_service url retries outcome = some b) := by
  have hurl2 : (!truthy url) = false := by rw [hurl]; rfl
  refine ⟨?_, ?_, ?_, ?_⟩
  · omega
  · intro hall
    rw [call_ai_service, hurl2, if_neg Bool.false_ne_true]
    rw [callLoop_all_fail]
    intro a ha
    rw [List.mem_map] at ha
    obtain ⟨i, hi, rfl⟩ := ha
    rw [List.mem_range] at hi
    exact hall i hi
  · intro hagree
    rw [call_ai_service, call_ai_service, hurl2, if_neg Bool.false_ne_true,
      if_neg Bool.false_ne_true]
    congr 1
    congr 1
    apply List.map_congr_left
    intro i hi
    rw [List.mem_range] at hi
    exact hagree i hi
  · intro l1 b l2 hsplit hfail
    rw [call_ai_service, hurl2, if_neg Bool.false_ne_true, hsplit,
      callLoop_first_success l1 b l2 hfail]

/-- Evaluation of the claim-C9 specification: two attempts that both raise
yield the synthesized pending result. -/
theorem call_ai_service_spec_witness :
    truthy (some "http://ai") = true ∧
    call_ai_service (some "http://ai") 2 (fun _ => .exception "down") = some unavailableResult :=
  ⟨by decide,
    (call_ai_service_spec (some "http://ai") 2 (fun _ => .exception "down")
      (fun _ => .exception "down") (by decide)).2.1 (fun _ _ => rfl)⟩

/-! ## `create_post` (`backend/app/routes/posts.py`, lines 53-160)

```python
    add_post(base_doc)
    vector, _ = await embed_media(media_bytes, settings)
    dup = await find_near_duplicate(vector, settings, user_id=payload.user_id)
    if dup:
        updated = update_post(post_id, {"status": "rejected", "verified": False,
            "review_notes": f"Near-duplicate detected (similar to {dup.get('post_id')})",
            "credits_awarded": 0})
        return Post(**updated) if updated else Post(**base_doc)

    verdict, notes = await assess_image_authenticity(media_bytes, settings)
    gemini_issue = isinstance(notes, str) and notes.startswith("gemini-error")
    if settings.offline_mode or not settings.gemini_api_key or notes == "offline-auto-verified" or gemini_issue:
        ai_result = await call_ai_service(media_bytes, payload.user_id, post_id)
        if ai_result:
            status_val = ai_result.get("status", "pending")
            credits_val = int(ai_result.get("credits_awarded", 0) or 0)
            is_verified = status_val == "verified"
            update_post(post_id, {"verified": is_verified, "status": status_val,
                "review_notes": ai_result.get("notes", notes), "credits_awarded": credits_val})
            if is_verified and credits_val > 0:
                adjust_credits(payload.user_id, credits_val)
        else:
            update_post(post_id, {"verified": False, "status": "pending",
                "review_notes": notes, "credits_awarded": 0})
    elif verdict:
        credits = settings.default_reward_per_post
        update_post(post_id, {"verified": True, "status": "verified",
            "review_notes": notes, "credits_awarded": credits})
        adjust_credits(payload.user_id, credits)
    else:
        update_post(post_id, {"verified": False, "status": "pending",
            "credits_awarded": 0, "review_notes": notes})

    await save_embedding(post_id, payload.user_id, vector, settings)
```

The computed embedding `vector`, the generative-model outcome and the
(already-completed) remote `call_ai_service` result are parameters; the
generated `post_id` and the validated payload identity are parameters too.
The duplicate threshold is the source default `0.80 = 4/5`. -/

/-- The duplicate-rejection `update_post` field dict. -/
def dupUpd (dup_post_id : String) (p : PostDoc) : PostDoc :=
  { p with status := "rejected", verified := false,
           review_notes := some ("Near-duplicate detected (similar to " ++ dup_post_id ++ ")"),
           credits_awarded := 0 }

/-- The remote-adoption `update_post` field dict. -/
def remoteUpd (is_verified : Bool) (status_val rnotes : String) (credits_val : Int)
    (p : PostDoc) : PostDoc :=
  { p with verified := is_verified, status := status_val,
           review_notes := some rnotes, credits_awarded := credits_val }

/-- The non-rewarding pending `update_post` field dict. -/
def pendingUpd (notes : String) (p : PostDoc) : PostDoc :=
  { p with verified := false, status := "pending",
           review_notes := some notes, credits_awarded := 0 }

/-- The positive-verdict `update_post` field dict. -/
def verifiedUpd (notes : String) (credits : Int) (p : PostDoc) : PostDoc :=
  { p with verified := true, status := "verified",
           review_notes := some notes, credits_awarded := credits }

noncomputable def create_post (s : Settings) (user_id post_id : String) (vector : List ℝ)
    (gem : GeminiOutcome) (ai : Option AIVerifyResponse) (db : DB) : DB :=
  let base : PostDoc := ⟨post_id, user_id, "pending", false, 0, none⟩
  let db0 := add_post base db
  match find_near_duplicate vector (4 / 5) (some user_id) db0.embeddings with
  | some d => update_post post_id (dupUpd d.1.post_id) db0
  | none =>
    let va := assess_image_authenticity s gem
    let notes := va.2
    let gemini_issue := strStartsWith notes "gemini-error"
    let db2 :=
      if s.offline_mode || !truthy s.gemini_api_key ||
          (notes == "offline-auto-verified") || gemini_issue then
        match ai with
        | some r =>
          let status_val := r.status.getD "pending"
          let credits_val := r.credits_awarded.getD 0
          let is_verified := status_val == "verified"
          let dbu := update_post post_id
            (remoteUpd is_verified status_val (r.notes.getD notes) credits_val) db0
          if is_verified ∧ 0 < credits_val then (adjust_credits user_id credits_val dbu).2
          else dbu
        | none => update_post post_id (pendingUpd notes) db0
      else if va.1 then
        (adjust_credits user_id s.default_reward_per_post
          (update_post post_id (verifiedUpd notes s.default_reward_per_post) db0)).2
      else update_post post_id (pendingUpd notes) db0
    save_embedding post_id user_id vector db2

@[simp] theorem save_embedding_embeddings (post_id user_id : String) (vector : List ℝ)
    (db : DB) : (save_embedding post_id user_id vector db).embeddings =
      db.embeddings ++ [⟨post_id, user_id, vector⟩] := rfl

/-- Claim C1 (amended): for every non-duplicate submission `create_post`
persists the computed embedding for the submitting owner exactly once, as the
last state change after the status decision, in each of the verified, pending
and remote-delegation branches; but when the duplicate detector fires, the
route returns early and the embedding is *not* persisted. -/
theorem create_post_embedding_persistence (s : Settings) (user_id post_id : String)
    (vector : List ℝ) (gem : GeminiOutcome) (ai : Option AIVerifyResponse) (db : DB) :
    (create_post s user_id post_id vector gem ai db).embeddings =
      if (find_near_duplicate vector (4 / 5) (some user_id) db.embeddings).isSome
      then db.embeddings
      else db.embeddings ++ [⟨post_id, user_id, vector⟩] := by
  rw [create_post]
  rcases hdup : find_near_duplicate vector (4 / 5) (some user_id)
      (add_post ⟨post_id, user_id, "pending", false, 0, none⟩ db).embeddings with _ | d
  · rw [add_post_embeddings] at hdup
    rw [hdup, Option.isSome_none, if_neg Bool.false_ne_true]
    simp only [save_embedding_embeddings, add_post_embeddings]
    split
    · split
      · split <;> simp
      · simp
    · split <;> simp
  · rw [add_post_embeddings] at hdup
    rw [hdup, Option.isSome_some, if_pos rfl]
    rw [update_post_embeddings, add_post_embeddings]

theorem get_post_save (pid a b : String) (v : List ℝ) (db : DB) :
    get_post pid (save_embedding a b v db) = get_post pid db := rfl

theorem get_post_add (post_id : String) (doc : PostDoc) (db : DB)
    (hdoc : doc.id = post_id) (hfresh : ∀ p ∈ db.posts, p.id ≠ post_id) :
    get_post post_id (add_post doc db) = some doc := by
  have hnone : db.posts.find? (fun p => p.id == post_id) = none := by
    rw [List.find?_eq_none]
    intro p hp
    simp [hfresh p hp]
  rw [get_post]
  dsimp only [add_post]
  rw [find?_append_none _ _ _ hnone]
  simp [List.find?_cons, hdoc]

theorem adjust_credits_snd_credits (u : String) (delta : Int) (db1 db2 : DB)
    (h : db1.credits = db2.credits) :
    (adjust_credits u delta db1).2.credits = (adjust_credits u delta db2).2.credits := by
  rcases hrow : db2.credits.find? (fun rr => rr.1 == u) with _ | rr <;>
    simp [adjust_credits, h, hrow]

/-- Concrete cosine evaluation: query (1,0) against stored (12,5). -/
theorem cos_eval1 : _cosine [(1 : ℝ), 0] [12, 5] = 12 / 13 := by
  have ha : Real.sqrt (sumSq [(1 : ℝ), 0]) = 1 := by
    rw [show sumSq [(1 : ℝ), 0] = 1 by norm_num [sumSq]]
    exact Real.sqrt_one
  have hb : Real.sqrt (sumSq [(12 : ℝ), 5]) = 13 := by
    rw [show sumSq [(12 : ℝ), 5] = 169 by norm_num [sumSq]]
    rw [show (169 : ℝ) = 13 ^ 2 by norm_num]
    exact Real.sqrt_sq (by norm_num)
  unfold _cosine
  rw [ha, hb]
  rw [if_neg (by decide), if_neg (by norm_num)]
  norm_num [dotp]

/-- Concrete cosine evaluation: query (1,0) against stored (24,7). -/
theorem cos_eval2 : _cosine [(1 : ℝ), 0] [24, 7] = 24 / 25 := by
  have ha : Real.sqrt (sumSq [(1 : ℝ), 0]) = 1 := by
    rw [show sumSq [(1 : ℝ), 0] = 1 by norm_num [sumSq]]
    exact Real.sqrt_one
  have hb : Real.sqrt (sumSq [(24 : ℝ), 7]) = 25 := by
    rw [show sumSq [(24 : ℝ), 7] = 625 by norm_num [sumSq]]
    rw [show (625 : ℝ) = 25 ^ 2 by norm_num]
    exact Real.sqrt_sq (by norm_num)
  unfold _cosine
  rw [ha, hb]
  rw [if_neg (by decide), if_neg (by norm_num)]
  norm_num [dotp]

theorem dup_eval1 :
    find_near_duplicate [(1 : ℝ), 0] (4 / 5) (some "u") [⟨"p0", "u", [12, 5]⟩] =
      some (⟨"p0", "u", [12, 5]⟩, 12 / 13) := by
  rw [find_near_duplicate]
  show findLoop [(1 : ℝ), 0] (4 / 5) [⟨"p0", "u", [12, 5]⟩] none 0 =
    some (⟨"p0", "u", [12, 5]⟩, 12 / 13)
  simp only [findLoop]
  rw [cos_eval1]
  rw [if_pos (by norm_num)]

theorem dup_eval2 :
    find_near_duplicate [(1 : ℝ), 0] (4 / 5) (some "u") [⟨"p0", "u", [24, 7]⟩] =
      some (⟨"p0", "u", [24, 7]⟩, 24 / 25) := by
  rw [find_near_duplicate]
  show findLoop [(1 : ℝ), 0] (4 / 5) [⟨"p0", "u", [24, 7]⟩] none 0 =
    some (⟨"p0", "u", [24, 7]⟩, 24 / 25)
  simp only [findLoop]
  rw [cos_eval2]
  rw [if_pos (by norm_num)]

/-- Counterexample to claim C1 as stated: a duplicate-rejected submission does
not persist its embedding — the route returns before `save_embedding`, so the
embeddings table is unchanged (no record for the new post "p1"). -/
theorem create_post_duplicate_skips_persist :
    (create_post ⟨true, none, 10⟩ "u" "p1" [(1 : ℝ), 0] (.ok "t") none
        ⟨[], [], [⟨"p0", "u", [12, 5]⟩]⟩).embeddings = [⟨"p0", "u", [12, 5]⟩] := by
  simp only [create_post]
  rw [show find_near_duplicate [(1 : ℝ), 0] (4 / 5) (some "u")
      (add_post ⟨"p1", "u", "pending", false, 0, none⟩
        ⟨[], [], [⟨"p0", "u", [12, 5]⟩]⟩).embeddings =
      some (⟨"p0", "u", [12, 5]⟩, 12 / 13) from dup_eval1]
  rfl

/-- Claim C4 (amended): when the duplicate detector finds a match, the post is
stored rejected with zero credits and a review note naming the matched content
id (the note does not include the similarity score — see the counterexample),
the ledger and the embeddings table are untouched, and the pipeline stops
there: the result is independent of the authenticity-check and remote-service
outcomes. -/
theorem create_post_duplicate_branch_spec (s : Settings) (user_id post_id : String)
    (vector : List ℝ) (gem : GeminiOutcome) (ai : Option AIVerifyResponse) (db : DB)
    (d : EmbRec) (sc : ℝ)
    (hdup : find_near_duplicate vector (4 / 5) (some user_id) db.embeddings = some (d, sc))
    (hfresh : ∀ p ∈ db.posts, p.id ≠ post_id) :
    get_post post_id (create_post s user_id post_id vector gem ai db) =
      some ⟨post_id, user_id, "rejected", false, 0,
        some ("Near-duplicate detected (similar to " ++ d.post_id ++ ")")⟩ ∧
    (create_post s user_id post_id vector gem ai db).credits = db.credits ∧
    (create_post s user_id post_id vector gem ai db).embeddings = db.embeddings ∧
    (∀ gem2 ai2, create_post s user_id post_id vector gem2 ai2 db =
      create_post s user_id post_id vector gem ai db) := by
  have h2 : find_near_duplicate vector (4 / 5) (some user_id)
      (add_post ⟨post_id, user_id, "pending", false, 0, none⟩ db).embeddings = some (d, sc) := by
    rw [add_post_embeddings]
    exact hdup
  have hred : ∀ (gem2 : GeminiOutcome) (ai2 : Option AIVerifyResponse),
      create_post s user_id post_id vector gem2 ai2 db =
        update_post post_id (dupUpd d.post_id)
          (add_post ⟨post_id, user_id, "pending", false, 0, none⟩ db) := by
    intro gem2 ai2
    simp only [create_post]
    rw [h2]
  refine ⟨?_, ?_, ?_, fun gem2 ai2 => (hred gem2 ai2).trans (hred gem ai).symm⟩
  · rw [hred gem ai, get_post_update post_id (dupUpd d.post_id) _ (fun _ => rfl),
      get_post_add post_id _ db rfl hfresh]
    rfl
  · rw [hred gem ai, update_post_credits, add_post_credits]
  · rw [hred gem ai, update_post_embeddings, add_post_embeddings]

/-- Evaluation of the claim-C4 specification on a concrete duplicate hit. -/
theorem create_post_duplicate_branch_spec_witness :
    find_near_duplicate [(1 : ℝ), 0] (4 / 5) (some "u")
        (⟨[], [], [⟨"p0", "u", [12, 5]⟩]⟩ : DB).embeddings =
      some (⟨"p0", "u", [12, 5]⟩, 12 / 13) ∧
    get_post "p1" (create_post ⟨true, none, 10⟩ "u" "p1" [(1 : ℝ), 0] (.ok "t") none
        ⟨[], [], [⟨"p0", "u", [12, 5]⟩]⟩) =
      some ⟨"p1", "u", "rejected", false, 0,
        some ("Near-duplicate detected (similar to " ++ "p0" ++ ")")⟩ :=
  ⟨dup_eval1,
    (create_post_duplicate_branch_spec ⟨true, none, 10⟩ "u" "p1" [(1 : ℝ), 0] (.ok "t") none
      ⟨[], [], [⟨"p0", "u", [12, 5]⟩]⟩ ⟨"p0", "u", [12, 5]⟩ (12 / 13) dup_eval1
      (fun p hp => absurd hp (List.not_mem_nil p))).1⟩

/-- Counterexample to claim C4 as stated: two duplicate hits with different
similarity scores (12/13 and 24/25) produce byte-identical review notes, so
the stored review note cannot reference the similarity score. -/
theorem duplicate_note_omits_score :
    (find_near_duplicate [(1 : ℝ), 0] (4 / 5) (some "u") [⟨"p0", "u", [12, 5]⟩]).map Prod.snd =
      some (12 / 13) ∧
    (find_near_duplicate [(1 : ℝ), 0] (4 / 5) (some "u") [⟨"p0", "u", [24, 7]⟩]).map Prod.snd =
      some (24 / 25) ∧
    (12 / 13 : ℝ) ≠ 24 / 25 ∧
    get_post "p1" (create_post ⟨true, none, 10⟩ "u" "p1" [(1 : ℝ), 0] (.ok "t") none
        ⟨[], [], [⟨"p0", "u", [12, 5]⟩]⟩) =
      get_post "p1" (create_post ⟨true, none, 10⟩ "u" "p1" [(1 : ℝ), 0] (.ok "t") none
        ⟨[], [], [⟨"p0", "u", [24, 7]⟩]⟩) := by
  have e1 : get_post "p1" (create_post ⟨true, none, 10⟩ "u" "p1" [(1 : ℝ), 0] (.ok "t") none
      ⟨[], [], [⟨"p0", "u", [12, 5]⟩]⟩) =
      some ⟨"p1", "u", "rejected", false, 0,
        some "Near-duplicate detected (similar to p0)"⟩ := by
    simp only [create_post]
    rw [show find_near_duplicate [(1 : ℝ), 0] (4 / 5) (some "u")
        (add_post ⟨"p1", "u", "pending", false, 0, none⟩
          ⟨[], [], [⟨"p0", "u", [12, 5]⟩]⟩).embeddings =
        some (⟨"p0", "u", [12, 5]⟩, 12 / 13) from dup_eval1]
    rfl
  have e2 : get_post "p1" (create_post ⟨true, none, 10⟩ "u" "p1" [(1 : ℝ), 0] (.ok "t") none
      ⟨[], [], [⟨"p0", "u", [24, 7]⟩]⟩) =
      some ⟨"p1", "u", "rejected", false, 0,
        some "Near-duplicate detected (similar to p0)"⟩ := by
    simp only [create_post]
    rw [show find_near_duplicate [(1 : ℝ), 0] (4 / 5) (some "u")
        (add_post ⟨"p1", "u", "pending", false, 0, none⟩
          ⟨[], [], [⟨"p0", "u", [24, 7]⟩]⟩).embeddings =
        some (⟨"p0", "u", [24, 7]⟩, 24 / 25) from dup_eval2]
    rfl
  refine ⟨by rw [dup_eval1]; rfl, by rw [dup_eval2]; rfl, by norm_num, ?_⟩
  rw [e1, e2]

theorem get_post_update_remote (pid : String) (b : Bool) (sv rn : String) (cv : Int)
    (db : DB) :
    get_post pid (update_post pid (remoteUpd b sv rn cv) db) =
      (get_post pid db).map (remoteUpd b sv rn cv) :=
  get_post_update pid (remoteUpd b sv rn cv) db (fun _ => rfl)

/-- Claim C6 (amended): when `create_post` reaches the remote-delegation branch
and the service responds, the post adopts the returned status, credit amount
and notes verbatim, but the ledger delta is applied only when the adopted
status is `verified` and the amount is positive; for any other adopted
response the ledger is left unchanged even if the stored `credits_awarded` is
positive, so `credits_awarded` can differ from the net contribution applied to
the owner's ledger (see the counterexample). -/
theorem create_post_remote_branch_ledger_spec (s : Settings) (user_id post_id : String)
    (vector : List ℝ) (gem : GeminiOutcome) (r : AIVerifyResponse) (db : DB)
    (hdup : find_near_duplicate vector (4 / 5) (some user_id) db.embeddings = none)
    (hbranch : (s.offline_mode || !truthy s.gemini_api_key ||
        ((assess_image_authenticity s gem).2 == "offline-auto-verified") ||
        strStartsWith (assess_image_authenticity s gem).2 "gemini-error") = true)
    (hfresh : ∀ p ∈ db.posts, p.id ≠ post_id) :
    get_post post_id (create_post s user_id post_id vector gem (some r) db) =
      some ⟨post_id, user_id, r.status.getD "pending",
        r.status.getD "pending" == "verified", r.credits_awarded.getD 0,
        some (r.notes.getD (assess_image_authenticity s gem).2)⟩ ∧
    (create_post s user_id post_id vector gem (some r) db).credits =
      (if r.status.getD "pending" = "verified" ∧ 0 < r.credits_awarded.getD 0
       then (adjust_credits user_id (r.credits_awarded.getD 0) db).2.credits
       else db.credits) := by
  have h2 : find_near_duplicate vector (4 / 5) (some user_id)
      (add_post ⟨post_id, user_id, "pending", false, 0, none⟩ db).embeddings = none := by
    rw [add_post_embeddings]
    exact hdup
  have hred : create_post s user_id post_id vector gem (some r) db =
      save_embedding post_id user_id vector
        (if (r.status.getD "pending" == "verified") = true ∧ 0 < r.credits_awarded.getD 0
         then (adjust_credits user_id (r.credits_awarded.getD 0)
            (update_post post_id (remoteUpd (r.status.getD "pending" == "verified")
              (r.status.getD "pending")
              (r.notes.getD (assess_image_authenticity s gem).2) (r.credits_awarded.getD 0))
              (add_post ⟨post_id, user_id, "pending", false, 0, none⟩ db))).2
         else update_post post_id (remoteUpd (r.status.getD "pending" == "verified")
            (r.status.getD "pending")
            (r.notes.getD (assess_image_authenticity s gem).2) (r.credits_awarded.getD 0))
            (add_post ⟨post_id, user_id, "pending", false, 0, none⟩ db)) := by
    simp only [create_post]
    rw [h2]
    dsimp only
    rw [if_pos hbranch]
  by_cases hc : r.status.getD "pending" = "verified" ∧ 0 < r.credits_awarded.getD 0
  · have hcb : (r.status.getD "pending" == "verified") = true ∧ 0 < r.credits_awarded.getD 0 :=
      ⟨beq_iff_eq.mpr hc.1, hc.2⟩
    constructor
    · rw [hred, get_post_save, if_pos hcb, get_post_adjust, get_post_update_remote,
        get_post_add post_id _ db rfl hfresh]
      rfl
    · rw [hred, if_pos hc]
      rw [save_embedding_credits, if_pos hcb]
      exact adjust_credits_snd_credits _ _ _ _ (by rw [update_post_credits, add_post_credits])
  · have hcb : ¬((r.status.getD "pending" == "verified") = true ∧ 0 < r.credits_awarded.getD 0) :=
      fun hx => hc ⟨beq_iff_eq.mp hx.1, hx.2⟩
    constructor
    · rw [hred, get_post_save, if_neg hcb, get_post_update_remote,
        get_post_add post_id _ db rfl hfresh]
      rfl
    · rw [hred, if_neg hc]
      rw [save_embedding_credits, if_neg hcb, update_post_credits, add_post_credits]

/-- Evaluation of the claim-C6 specification on a verbatim-adopted verified
response with 3 credits, from an empty store. -/
theorem create_post_remote_branch_ledger_spec_witness :
    find_near_duplicate [(1 : ℝ)] (4 / 5) (some "u") (⟨[], [], []⟩ : DB).embeddings = none ∧
    (create_post ⟨true, none, 10⟩ "u" "p1" [(1 : ℝ)] (.ok "t")
        (some ⟨some "verified", some 3, some "ok"⟩) ⟨[], [], []⟩).credits =
      (if (⟨some "verified", some 3, some "ok"⟩ : AIVerifyResponse).status.getD "pending" =
            "verified" ∧
          0 < (⟨some "verified", some 3, some "ok"⟩ : AIVerifyResponse).credits_awarded.getD 0
       then (adjust_credits "u"
          ((⟨some "verified", some 3, some "ok"⟩ : AIVerifyResponse).credits_awarded.getD 0)
          (⟨[], [], []⟩ : DB)).2.credits
       else (⟨[], [], []⟩ : DB).credits) :=
  ⟨rfl,
    (create_post_remote_branch_ledger_spec ⟨true, none, 10⟩ "u" "p1" [(1 : ℝ)] (.ok "t")
      ⟨some "verified", some 3, some "ok"⟩ ⟨[], [], []⟩ rfl rfl
      (fun p hp => absurd hp (List.not_mem_nil p))).2⟩

/-- Counterexample to claim C6 as stated: a remote response adopted verbatim
with status "pending" and credits_awarded 5 stores 5 on the post while the
ledger receives nothing (the credits table stays empty), so `credits_awarded`
does not equal the net contribution applied to the owner's ledger. -/
theorem remote_pending_credits_not_applied :
    get_post "p1" (create_post ⟨true, none, 10⟩ "u" "p1" [(1 : ℝ)] (.ok "t")
        (some ⟨some "pending", some 5, some "n"⟩) ⟨[], [], []⟩) =
      some ⟨"p1", "u", "pending", false, 5, some "n"⟩ ∧
    (create_post ⟨true, none, 10⟩ "u" "p1" [(1 : ℝ)] (.ok "t")
        (some ⟨some "pending", some 5, some "n"⟩) ⟨[], [], []⟩).credits = [] ∧
    get_credits "u" (create_post ⟨true, none, 10⟩ "u" "p1" [(1 : ℝ)] (.ok "t")
        (some ⟨some "pending", some 5, some "n"⟩) ⟨[], [], []⟩) = 0 := by
  refine ⟨rfl, rfl, rfl⟩

/-- Evaluation of the claim-C10 specification at a concrete input. -/
theorem hash_embedding_spec_witness :
    0 < 64 ∧ (_hash_embedding [1, 2, 3] 64).length = 64 :=
  ⟨by decide, (hash_embedding_spec [1, 2, 3] 64 (by decide)).1⟩

/-- Evaluation of the claim-C1 specification on a concrete fresh store. -/
theorem create_post_embedding_persistence_witness :
    (create_post ⟨true, none, 10⟩ "u" "p1" [(1 : ℝ)] (.ok "t") none ⟨[], [], []⟩).embeddings =
      if (find_near_duplicate [(1 : ℝ)] (4 / 5) (some "u")
          (⟨[], [], []⟩ : DB).embeddings).isSome
      then (⟨[], [], []⟩ : DB).embeddings
      else (⟨[], [], []⟩ : DB).embeddings ++ [⟨"p1", "u", [(1 : ℝ)]⟩] :=
  create_post_embedding_persistence ⟨true, none, 10⟩ "u" "p1" [(1 : ℝ)] (.ok "t") none
    ⟨[], [], []⟩

/-- Evaluation of the claim-C7 specification on a concrete over-large debit. -/
theorem adjust_credits_floor_witness :
    0 ≤ (adjust_credits "u" (-7) ⟨[], [("u", 5)], []⟩).1 ∧
    (adjust_credits "u" (-7) ⟨[], [("u", 5)], []⟩).1 =
      max 0 (get_credits "u" ⟨[], [("u", 5)], []⟩ + (-7)) :=
  ⟨(adjust_credits_floor "u" (-7) ⟨[], [("u", 5)], []⟩ (fun _ => 0)).1,
   (adjust_credits_floor "u" (-7) ⟨[], [("u", 5)], []⟩ (fun _ => 0)).2.1⟩

end EcoSync
